import Mathlib

/-!
Verification of the MPD (DASH manifest) builder of shaka-packager
(`packager/mpd/base/mpd_builder.cc`), as a shallow embedding.

The XML-tree primitive, the clock/date formatting, the file-path helpers
and the logging macros are external collaborators of this translation
unit; they are modelled from the specification where noted.  Everything
else is translated directly from `mpd_builder.cc`.
-/

namespace Shaka

/-- Severity of a diagnostic emitted through the logging collaborator
(`LOG(ERROR)`, `LOG(WARNING)`). -/
inductive LogLevel where
  | warning
  | error
  deriving DecidableEq, Repr

/-- One diagnostic record: severity and message. -/
abbrev LogEntry := LogLevel × String

/-- An XML element: name, attributes (in document order), text content and
child elements.  Models the subset of libxml2 nodes the builder uses. -/
inductive XmlNode where
  | mk (name : String) (attrs : List (String × String)) (content : String)
      (children : List XmlNode)

/-- The element's tag name. -/
def XmlNode.name : XmlNode → String
  | .mk n _ _ _ => n

/-- The element's attribute list. -/
def XmlNode.attrs : XmlNode → List (String × String)
  | .mk _ a _ _ => a

/-- The element's text content. -/
def XmlNode.content : XmlNode → String
  | .mk _ _ c _ => c

/-- The element's child elements. -/
def XmlNode.children : XmlNode → List XmlNode
  | .mk _ _ _ cs => cs

/-- Set a key in an association list, replacing an existing binding in
place or appending a new one at the end (libxml `xmlSetProp` semantics). -/
def setAttrList (k v : String) : List (String × String) → List (String × String)
  | [] => [(k, v)]
  | (k₀, v₀) :: rest =>
      if k₀ = k then (k, v) :: rest else (k₀, v₀) :: setAttrList k v rest

/-- `XmlNode::SetStringAttribute`: set (or overwrite) an attribute. -/
def XmlNode.setAttr (n : XmlNode) (k v : String) : XmlNode :=
  .mk n.name (setAttrList k v n.attrs) n.content n.children

/-- Read an attribute (libxml `xmlGetProp`). -/
def XmlNode.getAttr (n : XmlNode) (k : String) : Option String :=
  (n.attrs.find? (fun a => a.1 = k)).map (·.2)

/-- Remove an attribute (libxml `xmlUnsetProp`). -/
def XmlNode.removeAttr (n : XmlNode) (k : String) : XmlNode :=
  .mk n.name (n.attrs.filter (fun a => ¬ a.1 = k)) n.content n.children

/-- Number of attributes carrying a given name. -/
def XmlNode.countAttr (n : XmlNode) (k : String) : Nat :=
  (n.attrs.filter (fun a => a.1 = k)).length

/-- `XmlNode::SetContent`. -/
def XmlNode.setContent (n : XmlNode) (c : String) : XmlNode :=
  .mk n.name n.attrs c n.children

/-- Append a child element (successful libxml `xmlAddChild`). -/
def XmlNode.appendChild (n c : XmlNode) : XmlNode :=
  .mk n.name n.attrs n.content (n.children ++ [c])

/-! ## Date/time formatting

`base::Time`, `base::Clock` and `UTCExplode` are external collaborators.
An instant is modelled as an integer count of seconds since the Unix
epoch; the exploded UTC fields are obtained by the standard civil-calendar
conversion.  The `printf` format string is taken from the source
(`"%4d-%02d-%02dT%02d:%02d:%02dZ"`). -/

/-- `%02d`: decimal, zero-padded to two digits for the in-range values
used by the date formatter. -/
def pad2 (n : ℤ) : String :=
  if 0 ≤ n ∧ n < 10 then "0" ++ toString n else toString n

/-- `%4d`: decimal, space-padded to width four. -/
def pad4 (n : ℤ) : String :=
  let s := toString n
  if s.length < 4 then String.mk (List.replicate (4 - s.length) ' ') ++ s else s

/-- Modelled from the spec: the UTC civil-calendar explosion performed by
`base::Time::UTCExplode` (not part of this translation unit).  Converts a
count of days since 1970-01-01 to `(year, month, day)` using the standard
Gregorian conversion. -/
def civilFromDays (z : ℤ) : ℤ × ℤ × ℤ :=
  let z := z + 719468
  let era := z.ediv 146097
  let doe := z - era * 146097
  let yoe := (doe - doe.ediv 1460 + doe.ediv 36524 - doe.ediv 146096).ediv 365
  let y := yoe + era * 400
  let doy := doe - (365 * yoe + yoe.ediv 4 - yoe.ediv 100)
  let mp := (5 * doy + 2).ediv 153
  let d := doy - (153 * mp + 2).ediv 5 + 1
  let m := mp + (if mp < 10 then 3 else -9)
  (y + (if m ≤ 2 then 1 else 0), m, d)

/-- Modelled from the spec: format an instant (seconds since the Unix
epoch) as the UTC XML date-time `YYYY-MM-DDTHH:MM:SSZ`; the field layout
is the source's `printf` format string, the field values the UTC
explosion of the instant. -/
def formatUTC (t : ℤ) : String :=
  let sod := t.emod 86400
  let ymd := civilFromDays (t.ediv 86400)
  pad4 ymd.1 ++ "-" ++ pad2 ymd.2.1 ++ "-" ++ pad2 ymd.2.2 ++ "T" ++
    pad2 (sod.ediv 3600) ++ ":" ++ pad2 ((sod.emod 3600).ediv 60) ++ ":" ++
    pad2 (sod.emod 60) ++ "Z"

/-- `XmlDateTimeNowWithOffset`: current time plus an offset in seconds,
in XML DateTime format (UTC, ending in `Z`). -/
def xmlDateTimeNowWithOffset (offset_seconds : ℤ) (now : ℤ) : String :=
  formatUTC (now + offset_seconds)

/-- `Positive` (mpd_builder.cc): strictly greater than zero. -/
def Positive (d : ℚ) : Bool :=
  d > 0

/-- Modelled from the spec: a canonical decimal-free rendering of a
rational number of seconds (`num` or `num/den`), standing in for the
floating-point `DoubleToString` of the external string library.  Any
injective rendering serves the specification's \u00abISO-8601 duration\u00bb
contract. -/
def ratToString (q : ℚ) : String :=
  if q.den = 1 then toString q.num
  else toString q.num ++ "/" ++ toString q.den

/-- Modelled from the spec: `SecondsToXmlDuration` of `mpd_utils` (not
part of this translation unit) formats a number of seconds as an
ISO-8601 duration token `PT…S`. -/
def SecondsToXmlDuration (seconds : ℚ) : String :=
  "PT" ++ ratToString seconds ++ "S"

/-! ## The scratch "duration" attribute

`GetDurationAttribute` lives in `mpd_utils` (outside this translation
unit): it reads the `duration` attribute of a node and parses it as a
decimal number, failing when the attribute is absent or unparsable. -/

/-- Accumulate a non-empty all-digit character list into a natural
number, most significant digit first. -/
def parseDigits : List Char → Option ℕ
  | [] => none
  | cs => cs.foldlM (fun acc c =>
      if c.isDigit then some (acc * 10 + (c.toNat - 48)) else none) 0

/-- Modelled from the spec: decimal parsing of a duration hint
(`base::StringToDouble`): optional minus sign, digits, optional dot and
fraction digits. -/
def parseDecimal (s : String) : Option ℚ :=
  let core : List Char → Option ℚ := fun cs =>
    match cs.span (·.isDigit) with
    | (intPart, rest) =>
      match parseDigits intPart with
      | none => none
      | some ip =>
        match rest with
        | [] => some (ip : ℚ)
        | '.' :: frac =>
            match parseDigits frac with
            | none => none
            | some fp => some ((ip : ℚ) + (fp : ℚ) / (10 : ℚ) ^ frac.length)
        | _ => none
  match s.toList with
  | '-' :: cs => (core cs).map (fun q => -q)
  | cs => core cs

/-- Modelled from the spec: `GetDurationAttribute` of `mpd_utils` — the
numeric value of the scratch `duration` hint attribute, when the
attribute is present and parses. -/
def GetDurationAttribute (node : XmlNode) : Option ℚ :=
  (node.getAttr "duration").bind parseDecimal

/-! ## File paths

`base::FilePath` is an external collaborator.  Paths are modelled as
strings; both `/` and `\` act as component separators and the rewrite
normalizes separators to `/`, per the specification's relativization
policy. -/

/-- Modelled from the spec: the prefix test `mpd_path.find(prefix) == 0`
of the external string library, on the underlying character lists. -/
def strHasPrefix (pre s : String) : Bool :=
  pre.toList.isPrefixOf s.toList

/-- Modelled from the spec: `substr(n)` of the external string library —
drop the first `n` characters. -/
def strDrop (s : String) (n : ℕ) : String :=
  String.mk (s.toList.drop n)

/-- A path-separator character. -/
def isSep (c : Char) : Bool :=
  c = '/' ∨ c = '\\'

/-- Modelled from the spec: separator normalization
(`NormalizePathSeparatorsTo('/')`) — every backslash becomes a forward
slash. -/
def normalizeSep (s : String) : String :=
  String.mk (s.toList.map (fun c => if c = '\\' then '/' else c))

/-- Split a character list at `/`, accumulating the current component in
reverse. -/
def splitSlashAux : List Char → List Char → List String
  | [], acc => [String.mk acc.reverse]
  | c :: rest, acc =>
      if c = '/' then String.mk acc.reverse :: splitSlashAux rest []
      else splitSlashAux rest (c :: acc)

/-- Path components, after separator normalization. -/
def pathComponents (s : String) : List String :=
  splitSlashAux (normalizeSep s).toList []

/-- Drop a trailing empty component (produced by a trailing separator). -/
def dropTrailingEmpty (l : List String) : List String :=
  if l.getLast? = some "" then l.dropLast else l

/-- Modelled from the spec: `FilePath::AppendRelativePath` — when the
parent directory's components are a proper prefix of the child path's
components, the remaining child components (the relative path); otherwise
failure (the child is not a descendant of the parent). -/
def appendRelativePath (parent child : String) : Option (List String) :=
  let pc := dropTrailingEmpty (pathComponents parent)
  let cc := pathComponents child
  if pc ≠ [] ∧ pc <+: cc ∧ pc.length < cc.length then some (cc.drop pc.length)
  else none

/-- `MakePathRelative` (mpd_builder.cc): the media path relative to the
manifest directory when it is a descendant, otherwise the media path
itself; separators normalized to `/` either way. -/
def MakePathRelative (media_path : String) (parent_path : String) : String :=
  match appendRelativePath parent_path media_path with
  | some comps => String.intercalate "/" comps
  | none => normalizeSep media_path

/-- Modelled from the spec: `DirName().AsEndingWithSeparator()` — the
containing directory of a path, ending with a separator; `./` when the
path has no separator at all. -/
def dirNameWithSeparator (s : String) : String :=
  match (s.toList.reverse.findIdx? isSep).map
      (fun i => s.toList.length - 1 - i) with
  | some i => String.mk (s.toList.take (i + 1))
  | none => "./"

/-- The three optional path-valued fields of a `MediaInfo` record that
`MakePathsRelativeToMpd` may rewrite. -/
structure MediaInfo where
  media_file_name : Option String
  init_segment_name : Option String
  segment_template : Option String
  deriving DecidableEq, Repr

/-- `MpdBuilder::MakePathsRelativeToMpd`: strip a `file://` prefix from
the manifest path; when the stripped path and its containing directory
are non-empty, rewrite each present field relative to that directory. -/
def MakePathsRelativeToMpd (mpd_path : String) (media_info : MediaInfo) :
    MediaInfo :=
  let kFileProtocol := "file://"
  let mpd_file_path :=
    if strHasPrefix kFileProtocol mpd_path then
      strDrop mpd_path kFileProtocol.length
    else mpd_path
  if mpd_file_path ≠ "" then
    let mpd_dir := dirNameWithSeparator mpd_file_path
    if mpd_dir ≠ "" then
      { media_file_name :=
          media_info.media_file_name.map (MakePathRelative · mpd_dir)
        init_segment_name :=
          media_info.init_segment_name.map (MakePathRelative · mpd_dir)
        segment_template :=
          media_info.segment_template.map (MakePathRelative · mpd_dir) }
    else media_info
  else media_info

/-! ## Builder state -/

/-- `DashProfile`: a C++ `enum class` over an integer carrier, so values
outside the declared enumerators are representable (`unknown v`). -/
inductive DashProfile where
  | kOnDemand
  | kLive
  | unknown (v : ℤ)
  deriving DecidableEq, Repr

/-- `MpdType`: a C++ `enum class` over an integer carrier, so values
outside the declared enumerators are representable (`unknown v`). -/
inductive MpdType where
  | kStatic
  | kDynamic
  | unknown (v : ℤ)
  deriving DecidableEq, Repr

/-- The numeric parameters of `MpdParams` the builder reads. -/
structure MpdParams where
  min_buffer_time : ℚ
  minimum_update_period : ℚ
  time_shift_buffer_depth : ℚ
  suggested_presentation_delay : ℚ
  deriving DecidableEq, Repr

/-- `MpdOptions`: profile, manifest type and numeric parameters. -/
structure MpdOptions where
  dash_profile : DashProfile
  mpd_type : MpdType
  mpd_params : MpdParams
  deriving DecidableEq, Repr

/-- The content-period external collaborator, reduced to the two
operations the builder consumes (spec §6): `GetXml` produces an optional
subtree (absence is a fatal rendering failure) and `GetEarliestTimestamp`
reports an optional earliest timestamp in seconds. -/
structure Period where
  getXml : Option XmlNode
  earliestTimestamp : Option ℚ

/-- The mutable state of an `MpdBuilder`: options, base URLs, periods
in insertion order, and the cached availability-start-time string
(empty until first computed). -/
structure MpdBuilder where
  mpd_options : MpdOptions
  base_urls : List String
  periods : List Period
  availability_start_time : String

/-- The remaining external collaborators of document generation:
whether the XML primitive accepts a given child append, and the
packager version/project-URL strings. -/
structure Env where
  addChildOk : XmlNode → XmlNode → Bool
  version : String
  projectUrl : String

/-- `XmlNode::AddChild` through the external primitive: appends the
child on success, fails when the primitive rejects the append. -/
def addChild (env : Env) (parent child : XmlNode) : Option XmlNode :=
  if env.addChildOk parent child then some (parent.appendChild child)
  else none

/-- `AddMpdNameSpaceInfo`: the five fixed namespace/schema attributes of
the root element. -/
def AddMpdNameSpaceInfo (mpd : XmlNode) : XmlNode :=
  ((((mpd.setAttr "xmlns" "urn:mpeg:dash:schema:mpd:2011").setAttr
      "xmlns:xsi" "http://www.w3.org/2001/XMLSchema-instance").setAttr
      "xmlns:xlink" "http://www.w3.org/1999/xlink").setAttr
      "xsi:schemaLocation" "urn:mpeg:dash:schema:mpd:2011 DASH-MPD.xsd").setAttr
      "xmlns:cenc" "urn:mpeg:cenc:2013"

/-- `SetIfPositive`: attach an ISO-8601 duration attribute only when the
value is strictly positive. -/
def SetIfPositive (attr_name : String) (value : ℚ) (mpd : XmlNode) : XmlNode :=
  if Positive value then mpd.setAttr attr_name (SecondsToXmlDuration value)
  else mpd

/-- `MpdBuilder::AddCommonMpdInfo`: `minBufferTime` when strictly
positive, otherwise an error diagnostic. -/
def AddCommonMpdInfo (options : MpdOptions) (mpd_node : XmlNode) :
    XmlNode × List LogEntry :=
  if Positive options.mpd_params.min_buffer_time then
    (mpd_node.setAttr "minBufferTime"
      (SecondsToXmlDuration options.mpd_params.min_buffer_time), [])
  else
    (mpd_node, [(.error, "minBufferTime value not specified.")])

/-- One representation leaf of the static-duration walk: when the scratch
`duration` hint is readable, fold it into the running maximum
(`max_duration > duration ? max_duration : duration`) and strip the
attribute; otherwise leave the leaf untouched. -/
def scanRepresentation (acc : ℚ) (rep : XmlNode) : ℚ × XmlNode :=
  match GetDurationAttribute rep with
  | some duration =>
      (if acc > duration then acc else duration, rep.removeAttr "duration")
  | none => (acc, rep)

/-- The inner loop of `GetStaticMpdDuration` over the representation
children of one adaptation set. -/
def scanRepresentations (acc : ℚ) : List XmlNode → ℚ × List XmlNode
  | [] => (acc, [])
  | rep :: rest =>
      let r := scanRepresentation acc rep
      let rs := scanRepresentations r.1 rest
      (rs.1, r.2 :: rs.2)

/-- The outer loop of `GetStaticMpdDuration` over the adaptation-set
children of the period node. -/
def scanAdaptationSets (acc : ℚ) : List XmlNode → ℚ × List XmlNode
  | [] => (acc, [])
  | aset :: rest =>
      let r := scanRepresentations acc aset.children
      let a := XmlNode.mk aset.name aset.attrs aset.content r.2
      let rs := scanAdaptationSets r.1 rest
      (rs.1, a :: rs.2)

/-- `FindPeriodNode` composed with the walk: find the first direct child
named `Period` (`IsPeriodNode`), compute the maximum duration hint two
levels below it and strip the visited hints.  `none` when no Period
child exists. -/
def walkFirstPeriod : List XmlNode → Option (ℚ × List XmlNode)
  | [] => none
  | c :: cs =>
      if c.name = "Period" then
        let r := scanAdaptationSets 0 c.children
        some (r.1, XmlNode.mk c.name c.attrs c.content r.2 :: cs)
      else
        (walkFirstPeriod cs).map (fun r => (r.1, c :: r.2))

/-- `MpdBuilder::GetStaticMpdDuration`: maximum `duration` hint over the
representation leaves below the first `Period` child (stripping the
scratch attribute from each visited leaf), the mutated tree, and a
warning diagnostic with duration `0` when no Period child is found. -/
def GetStaticMpdDuration (mpd_node : XmlNode) : ℚ × XmlNode × List LogEntry :=
  match walkFirstPeriod mpd_node.children with
  | none =>
      (0, mpd_node, [(.warning, "No Period node found. Set MPD duration to 0.")])
  | some r =>
      (r.1, XmlNode.mk mpd_node.name mpd_node.attrs mpd_node.content r.2, [])

/-- `MpdBuilder::AddStaticMpdInfo`: `type="static"` and the mandatory
`mediaPresentationDuration`. -/
def AddStaticMpdInfo (mpd_node : XmlNode) : XmlNode × List LogEntry :=
  let node := mpd_node.setAttr "type" "static"
  let r := GetStaticMpdDuration node
  (r.2.1.setAttr "mediaPresentationDuration" (SecondsToXmlDuration r.1), r.2.2)

/-- `MpdBuilder::GetEarliestTimestamp` behaviour on the first period of
the list: the timestamp the first period reports.  (The C++ accesses
`periods_.front()` unconditionally; see `GetEarliestTimestampPre` for
its `DCHECK` precondition.) -/
def MpdBuilder.getEarliestTimestamp (b : MpdBuilder) : Option ℚ :=
  match b.periods with
  | [] => none
  | p :: _ => p.earliestTimestamp

/-- The `DCHECK(!periods_.empty())` precondition of
`MpdBuilder::GetEarliestTimestamp`: the period list must be non-empty,
or `periods_.front()` is an out-of-bounds access. -/
def MpdBuilder.GetEarliestTimestampPre (b : MpdBuilder) : Prop :=
  b.periods ≠ []

/-- The condition under which `MpdBuilder::AddDynamicMpdInfo` invokes
`GetEarliestTimestamp` (mpd_builder.cc lines 275–277): the cached
availability-start-time is still empty. -/
def MpdBuilder.invokesEarliestTimestampQuery (b : MpdBuilder) : Bool :=
  b.availability_start_time = ""

/-- `MpdBuilder::AddDynamicMpdInfo`: `type="dynamic"`, `publishTime`,
the lazily-computed-and-cached `availabilityStartTime`, and the three
positive-gated update/buffer attributes.  Returns the decorated node,
the builder with its (possibly newly computed) cache, and diagnostics. -/
def MpdBuilder.addDynamicMpdInfo (b : MpdBuilder) (now : ℤ)
    (mpd_node : XmlNode) : XmlNode × MpdBuilder × List LogEntry :=
  let node := (mpd_node.setAttr "type" "dynamic").setAttr "publishTime"
    (xmlDateTimeNowWithOffset 0 now)
  let computed : String × List LogEntry :=
    if b.availability_start_time = "" then
      match b.getEarliestTimestamp with
      | some earliest_presentation_time =>
          (xmlDateTimeNowWithOffset (-⌈earliest_presentation_time⌉) now, [])
      | none =>
          ("", [(.error, "Could not determine the earliest segment presentation time for availabilityStartTime calculation.")])
    else (b.availability_start_time, [])
  let node :=
    if computed.1 ≠ "" then node.setAttr "availabilityStartTime" computed.1
    else node
  let withMup : XmlNode × List LogEntry :=
    if Positive b.mpd_options.mpd_params.minimum_update_period then
      (node.setAttr "minimumUpdatePeriod"
        (SecondsToXmlDuration b.mpd_options.mpd_params.minimum_update_period),
        [])
    else
      (node, [(.warning, "The profile is dynamic but no minimumUpdatePeriod specified.")])
  let node := SetIfPositive "timeShiftBufferDepth"
      b.mpd_options.mpd_params.time_shift_buffer_depth withMup.1
  let node := SetIfPositive "suggestedPresentationDelay"
      b.mpd_options.mpd_params.suggested_presentation_delay node
  (node, { b with availability_start_time := computed.1 },
    computed.2 ++ withMup.2)

/-! ## Document generation -/

/-- A generated document: the root element plus the optional
version-provenance comment placed beside it. -/
structure MpdDoc where
  root : XmlNode
  comment : Option String

/-- Outcome of `MpdBuilder::GenerateMpd`: a document; `failure` when a
child append or a period subtree production fails (the C++ returns
`nullptr`); or `fatal` for the `NOTREACHED` defect paths. -/
inductive GenRes where
  | fatal (msg : String)
  | failure
  | success (doc : MpdDoc)

/-- The base-URL loop of `GenerateMpd`: one `BaseURL` child per base URL
in insertion order, aborting on the first rejected append. -/
def appendBaseUrls (env : Env) (mpd : XmlNode) : List String → Option XmlNode
  | [] => some mpd
  | base_url :: rest =>
      match addChild env mpd ((XmlNode.mk "BaseURL" [] "" []).setContent base_url) with
      | none => none
      | some mpd => appendBaseUrls env mpd rest

/-- The period loop of `GenerateMpd`: each period's subtree in insertion
order, aborting when a period produces no subtree or its append is
rejected. -/
def appendPeriods (env : Env) (mpd : XmlNode) : List Period → Option XmlNode
  | [] => some mpd
  | period :: rest =>
      match period.getXml with
      | none => none
      | some period_node =>
          match addChild env mpd period_node with
          | none => none
          | some mpd => appendPeriods env mpd rest

/-- The version-provenance comment: present exactly when the packager
version string is non-empty. -/
def versionComment (env : Env) : Option String :=
  if env.version = "" then none
  else some ("Generated with " ++ env.projectUrl ++ " version " ++ env.version)

/-- The tail of `GenerateMpd` after the profile attribute: common info,
the manifest-type switch, and document assembly. -/
def MpdBuilder.finishMpd (b : MpdBuilder) (env : Env) (now : ℤ)
    (mpd : XmlNode) : GenRes × MpdBuilder × List LogEntry :=
  let common := AddCommonMpdInfo b.mpd_options mpd
  match b.mpd_options.mpd_type with
  | .kStatic =>
      let r := AddStaticMpdInfo common.1
      (.success ⟨r.1, versionComment env⟩, b, common.2 ++ r.2)
  | .kDynamic =>
      let r := b.addDynamicMpdInfo now common.1
      (.success ⟨r.1, versionComment env⟩, r.2.1, common.2 ++ r.2.2)
  | .unknown v =>
      (.fatal ("Unknown MPD type: " ++ toString v), b, common.2)

/-- `MpdBuilder::GenerateMpd`: root element, base URLs, period subtrees,
namespace attributes, profile attribute, common and type-specific
attributes, optional provenance comment.  The `NOTREACHED` defaults of
the two switches are modelled from the spec as immediate loud failures
(`NOTREACHED` itself is outside this translation unit); on them and on
append failures the builder state is unchanged. -/
def MpdBuilder.generateMpd (b : MpdBuilder) (env : Env) (now : ℤ) :
    GenRes × MpdBuilder × List LogEntry :=
  match appendBaseUrls env (XmlNode.mk "MPD" [] "" []) b.base_urls with
  | none => (.failure, b, [])
  | some mpd =>
    match appendPeriods env mpd b.periods with
    | none => (.failure, b, [])
    | some mpd =>
      let mpd := AddMpdNameSpaceInfo mpd
      match b.mpd_options.dash_profile with
      | .unknown v => (.fatal ("Unknown DASH profile: " ++ toString v), b, [])
      | .kOnDemand =>
          b.finishMpd env now
            (mpd.setAttr "profiles" "urn:mpeg:dash:profile:isoff-on-demand:2011")
      | .kLive =>
          b.finishMpd env now
            (mpd.setAttr "profiles" "urn:mpeg:dash:profile:isoff-live:2011")

/-- Modelled from the spec: the text serialization performed by libxml's
`xmlDocDumpFormatMemoryEnc` — a concrete rendering of an element and its
subtree. -/
def XmlNode.render : XmlNode → String
  | .mk name attrs content children =>
      "<" ++ name ++
        String.join (attrs.map (fun a => " " ++ a.1 ++ "=\x22" ++ a.2 ++ "\x22")) ++
        ">" ++ content ++
        String.join (children.attach.map (fun c => XmlNode.render c.1)) ++
        "</" ++ name ++ ">"
  decreasing_by
    have h := List.sizeOf_lt_of_mem c.2
    simp only [XmlNode.mk.sizeOf_spec]
    omega

/-- The rendered document text: XML declaration, optional provenance
comment, root subtree. -/
def MpdDoc.render (doc : MpdDoc) : String :=
  "<?xml version=\x221.0\x22 encoding=\x22UTF-8\x22?>\n" ++
    (match doc.comment with
     | some c => "<!--" ++ c ++ "-->\n"
     | none => "") ++ doc.root.render

/-- `MpdBuilder::ToString`: serialize the generated document into the
caller's output string.  Returns `none` when generation hit a
`NOTREACHED` defect path (the process fails loudly, modelled from the
spec); otherwise the success flag and the output string, which is left
unchanged on failure. -/
def MpdBuilder.ToString (b : MpdBuilder) (env : Env) (now : ℤ)
    (output : String) : Option (Bool × String) × MpdBuilder × List LogEntry :=
  match b.generateMpd env now with
  | (.fatal _, b2, log) => (none, b2, log)
  | (.failure, b2, log) => (some (false, output), b2, log)
  | (.success doc, b2, log) => (some (true, doc.render), b2, log)

/-! ## Specification-side definitions

These follow the words of the specification and are compared against the
translated code. -/

/-- The profile URI the specification associates with each declared
profile enumerator; none for out-of-range values. -/
def profileUri : DashProfile → Option String
  | .kOnDemand => some "urn:mpeg:dash:profile:isoff-on-demand:2011"
  | .kLive => some "urn:mpeg:dash:profile:isoff-live:2011"
  | .unknown _ => none

/-- The first `Period` element among the root's direct children. -/
def findPeriodChild (node : XmlNode) : Option XmlNode :=
  node.children.find? (fun c => c.name = "Period")

/-- The representation leaves two levels below the first `Period` child
(group level, then leaf level); empty when there is no `Period` child. -/
def representationLeaves (node : XmlNode) : List XmlNode :=
  match findPeriodChild node with
  | none => []
  | some p => (p.children.map XmlNode.children).flatten

/-- The maximum `duration` hint over all representation leaves, zero
when none carries a readable hint. -/
def maxDurationHint (node : XmlNode) : ℚ :=
  ((representationLeaves node).filterMap GetDurationAttribute).foldl max 0

/-- Strip the scratch `duration` attribute from a leaf that carries a
readable hint; leave other leaves untouched. -/
def cleanHint (leaf : XmlNode) : XmlNode :=
  if (GetDurationAttribute leaf).isSome then leaf.removeAttr "duration"
  else leaf

/-- The manifest path after stripping a leading `file://` prefix. -/
def strippedManifestPath (mpd_path : String) : String :=
  if strHasPrefix "file://" mpd_path then strDrop mpd_path ("file://").length
  else mpd_path

/-! ## Attribute-list lemmas -/

theorem find?_setAttrList_self (k v : String) (l : List (String × String)) :
    (setAttrList k v l).find? (fun a => a.1 = k) = some (k, v) := by
  induction l with
  | nil => simp [setAttrList]
  | cons hd tl ih =>
      by_cases h : hd.1 = k
      · simp [setAttrList, h]
      · simp [setAttrList, h, List.find?, ih]

theorem find?_setAttrList_ne {k' k : String} (h : k' ≠ k) (v : String)
    (l : List (String × String)) :
    (setAttrList k v l).find? (fun a => a.1 = k') =
      l.find? (fun a => a.1 = k') := by
  induction l with
  | nil => simp [setAttrList, List.find?, h.symm]
  | cons hd tl ih =>
      by_cases hh : hd.1 = k
      · simp [setAttrList, hh, List.find?, h.symm, hh.symm ▸ h.symm]
      · simp only [setAttrList, hh, if_false, List.find?]
        cases hp : (decide (hd.1 = k')) <;> simp [hp, ih]

theorem getAttr_setAttr_self (n : XmlNode) (k v : String) :
    (n.setAttr k v).getAttr k = some v := by
  cases n
  simp [XmlNode.setAttr, XmlNode.getAttr, XmlNode.attrs, find?_setAttrList_self]

theorem getAttr_setAttr_ne (n : XmlNode) {k' k : String} (h : k' ≠ k)
    (v : String) : (n.setAttr k v).getAttr k' = n.getAttr k' := by
  cases n
  simp [XmlNode.setAttr, XmlNode.getAttr, XmlNode.attrs, find?_setAttrList_ne h]

theorem name_setAttr (n : XmlNode) (k v : String) :
    (n.setAttr k v).name = n.name := by
  cases n; rfl

theorem children_setAttr (n : XmlNode) (k v : String) :
    (n.setAttr k v).children = n.children := by
  cases n; rfl

theorem attrs_setAttr (n : XmlNode) (k v : String) :
    (n.setAttr k v).attrs = setAttrList k v n.attrs := by
  cases n; rfl

theorem attrs_appendChild (n c : XmlNode) :
    (n.appendChild c).attrs = n.attrs := by
  cases n; rfl

theorem name_appendChild (n c : XmlNode) :
    (n.appendChild c).name = n.name := by
  cases n; rfl

theorem getAttr_congr {n m : XmlNode} (k : String) (h : n.attrs = m.attrs) :
    n.getAttr k = m.getAttr k := by
  cases n; cases m; simp only [XmlNode.attrs] at h; subst h; rfl

/-- Keys of an association list after a set: unchanged when the key was
bound, the key appended otherwise. -/
theorem keys_setAttrList (k v : String) (l : List (String × String)) :
    (setAttrList k v l).map Prod.fst =
      if k ∈ l.map Prod.fst then l.map Prod.fst else l.map Prod.fst ++ [k] := by
  induction l with
  | nil => simp [setAttrList]
  | cons hd tl ih =>
      by_cases h : hd.1 = k
      · simp [setAttrList, h]
      · simp only [setAttrList, h, if_false, List.map_cons, List.mem_cons]
        rw [ih]
        by_cases hm : k ∈ tl.map Prod.fst
        · simp [hm]
        · simp [hm, Ne.symm h]

theorem count_keys_setAttrList_self (k v : String) (l : List (String × String)) :
    ((setAttrList k v l).map Prod.fst).count k =
      max ((l.map Prod.fst).count k) 1 := by
  rw [keys_setAttrList]
  by_cases hm : k ∈ l.map Prod.fst
  · have h1 : 1 ≤ (l.map Prod.fst).count k := List.count_pos_iff.mpr hm
    simp [hm, Nat.max_eq_left h1]
  · have h0 : (l.map Prod.fst).count k = 0 := List.count_eq_zero.mpr hm
    simp [hm, h0, List.count_append]

theorem count_keys_setAttrList_ne {k' k : String} (h : k' ≠ k) (v : String)
    (l : List (String × String)) :
    ((setAttrList k v l).map Prod.fst).count k' = (l.map Prod.fst).count k' := by
  rw [keys_setAttrList]
  by_cases hm : k ∈ l.map Prod.fst
  · simp [hm]
  · simp [hm, List.count_append, List.count_eq_zero, h]

theorem countAttr_eq_count (n : XmlNode) (k : String) :
    n.countAttr k = (n.attrs.map Prod.fst).count k := by
  cases n with
  | mk name attrs content children =>
      simp only [XmlNode.countAttr, XmlNode.attrs]
      induction attrs with
      | nil => rfl
      | cons hd tl ih =>
          by_cases h : hd.1 = k
          · simpa [h, List.count_cons] using ih
          · simpa [h, List.count_cons] using ih

/-! ## Pipeline lemmas -/

theorem appendBaseUrls_pres {env : Env} {mpd mpd' : XmlNode}
    {urls : List String} (h : appendBaseUrls env mpd urls = some mpd') :
    mpd'.attrs = mpd.attrs ∧ mpd'.name = mpd.name := by
  induction urls generalizing mpd with
  | nil => simp [appendBaseUrls] at h; simp [h]
  | cons u rest ih =>
      simp only [appendBaseUrls] at h
      split at h
      · exact absurd h (by simp)
      · rename_i m hm
        have hrest := ih h
        have hm2 : m.attrs = mpd.attrs ∧ m.name = mpd.name := by
          simp only [addChild] at hm
          split at hm
          · cases hm
            exact ⟨attrs_appendChild _ _, name_appendChild _ _⟩
          · exact absurd hm (by simp)
        exact ⟨hrest.1.trans hm2.1, hrest.2.trans hm2.2⟩

theorem appendPeriods_pres {env : Env} {mpd mpd' : XmlNode}
    {periods : List Period} (h : appendPeriods env mpd periods = some mpd') :
    mpd'.attrs = mpd.attrs ∧ mpd'.name = mpd.name := by
  induction periods generalizing mpd with
  | nil => simp [appendPeriods] at h; simp [h]
  | cons p rest ih =>
      simp only [appendPeriods] at h
      split at h
      · exact absurd h (by simp)
      · rename_i pn hpn
        split at h
        · exact absurd h (by simp)
        · rename_i m hm
          have hrest := ih h
          have hm2 : m.attrs = mpd.attrs ∧ m.name = mpd.name := by
            simp only [addChild] at hm
            split at hm
            · cases hm
              exact ⟨attrs_appendChild _ _, name_appendChild _ _⟩
            · exact absurd hm (by simp)
          exact ⟨hrest.1.trans hm2.1, hrest.2.trans hm2.2⟩

theorem appendBaseUrls_total {env : Env}
    (henv : ∀ x y, env.addChildOk x y = true) (mpd : XmlNode)
    (urls : List String) : ∃ mpd', appendBaseUrls env mpd urls = some mpd' := by
  induction urls generalizing mpd with
  | nil => exact ⟨mpd, rfl⟩
  | cons u rest ih => simpa [appendBaseUrls, addChild, henv] using ih _

theorem appendPeriods_total {env : Env}
    (henv : ∀ x y, env.addChildOk x y = true) {periods : List Period}
    (hx : ∀ p ∈ periods, p.getXml ≠ none) (mpd : XmlNode) :
    ∃ mpd', appendPeriods env mpd periods = some mpd' := by
  induction periods generalizing mpd with
  | nil => exact ⟨mpd, rfl⟩
  | cons p rest ih =>
      have hp : p.getXml ≠ none := hx p (by simp)
      obtain ⟨pn, hpn⟩ : ∃ pn, p.getXml = some pn := by
        cases hxx : p.getXml with
        | none => exact absurd hxx hp
        | some pn => exact ⟨pn, rfl⟩
      have ih2 := ih (fun q hq => hx q (by simp [hq]))
      simpa [appendPeriods, hpn, addChild, henv] using ih2 _

theorem appendPeriods_none {env : Env} {periods : List Period}
    (h : ∃ p ∈ periods, p.getXml = none) (mpd : XmlNode) :
    appendPeriods env mpd periods = none := by
  induction periods generalizing mpd with
  | nil => simp at h
  | cons p rest ih =>
      obtain ⟨q, hq, hqx⟩ := h
      rcases List.mem_cons.mp hq with rfl | hmem
      · simp [appendPeriods, hqx]
      · simp only [appendPeriods]
        split
        · rfl
        · split
          · rfl
          · exact ih ⟨q, hmem, hqx⟩ _

theorem attrs_GetStaticMpdDuration (n : XmlNode) :
    (GetStaticMpdDuration n).2.1.attrs = n.attrs ∧
      (GetStaticMpdDuration n).2.1.name = n.name := by
  cases n with
  | mk name attrs content children =>
      simp only [GetStaticMpdDuration, XmlNode.children]
      split <;> simp [XmlNode.attrs, XmlNode.name]

/-- Inversion of a successful `GenerateMpd`: the children stage produced
a root whose attribute list is still empty, the profile was a declared
enumerator, and the remainder ran on the namespace- and
profile-decorated root. -/
theorem generateMpd_success_inv {b : MpdBuilder} {env : Env} {now : ℤ}
    {doc : MpdDoc} {b' : MpdBuilder} {log : List LogEntry}
    (h : b.generateMpd env now = (.success doc, b', log)) :
    ∃ mpd uri, mpd.attrs = [] ∧ mpd.name = "MPD" ∧
      profileUri b.mpd_options.dash_profile = some uri ∧
      b.finishMpd env now ((AddMpdNameSpaceInfo mpd).setAttr "profiles" uri) =
        (.success doc, b', log) := by
  simp only [MpdBuilder.generateMpd] at h
  split at h
  · exact absurd h (by simp)
  · rename_i m1 h1
    split at h
    · exact absurd h (by simp)
    · rename_i m2 h2
      have hpres1 := appendBaseUrls_pres h1
      have hpres2 := appendPeriods_pres h2
      have hattrs : m2.attrs = [] := by
        rw [hpres2.1, hpres1.1]; rfl
      have hname : m2.name = "MPD" := by
        rw [hpres2.2, hpres1.2]; rfl
      split at h
      · exact absurd h (by simp)
      · rename_i heq
        exact ⟨m2, _, hattrs, hname, by rw [heq]; rfl, h⟩
      · rename_i heq
        exact ⟨m2, _, hattrs, hname, by rw [heq]; rfl, h⟩

/-! ## The static-duration walk, related to its specification -/

theorem scanRepresentations_spec (l : List XmlNode) (acc : ℚ) :
    scanRepresentations acc l =
      ((l.filterMap GetDurationAttribute).foldl max acc, l.map cleanHint) := by
  induction l generalizing acc with
  | nil => simp [scanRepresentations]
  | cons rep rest ih =>
      cases hd : GetDurationAttribute rep with
      | none =>
          simp [scanRepresentations, scanRepresentation, hd, cleanHint, ih]
      | some d =>
          have hmax : (if acc > d then acc else d) = max acc d := by
            rcases le_or_lt acc d with h | h
            · rw [if_neg (not_lt.mpr h), max_eq_right h]
            · rw [if_pos h, max_eq_left h.le]
          simp [scanRepresentations, scanRepresentation, hd, cleanHint, ih, hmax]

theorem scanAdaptationSets_spec (sets : List XmlNode) (acc : ℚ) :
    scanAdaptationSets acc sets =
      (((sets.map (fun a => a.children.filterMap GetDurationAttribute)).flatten).foldl
          max acc,
        sets.map (fun a =>
          XmlNode.mk a.name a.attrs a.content (a.children.map cleanHint))) := by
  induction sets generalizing acc with
  | nil => simp [scanAdaptationSets]
  | cons a rest ih =>
      simp [scanAdaptationSets, scanRepresentations_spec, ih, List.foldl_append]

/-- The cleaned first `Period` child: same name, attributes and content,
every representation leaf cleaned of a readable hint. -/
def cleanedPeriod (p : XmlNode) : XmlNode :=
  XmlNode.mk p.name p.attrs p.content
    (p.children.map (fun a =>
      XmlNode.mk a.name a.attrs a.content (a.children.map cleanHint)))

theorem walkFirstPeriod_spec (cs : List XmlNode) :
    (cs.find? (fun c => c.name = "Period") = none → walkFirstPeriod cs = none) ∧
    (∀ p, cs.find? (fun c => c.name = "Period") = some p →
      ∃ cs', walkFirstPeriod cs =
          some
            (((p.children.map (fun a =>
                a.children.filterMap GetDurationAttribute)).flatten).foldl max 0,
              cs') ∧
        cs'.find? (fun c => c.name = "Period") = some (cleanedPeriod p)) := by
  induction cs with
  | nil => simp [walkFirstPeriod]
  | cons c cs ih =>
      by_cases hc : c.name = "Period"
      · constructor
        · intro h
          simp [List.find?_cons, hc] at h
        · intro p hp
          simp only [List.find?_cons, hc, decide_True] at hp
          cases hp
          refine ⟨cleanedPeriod c :: cs, ?_, ?_⟩
          · simp [walkFirstPeriod, hc, scanAdaptationSets_spec, cleanedPeriod]
          · have : (cleanedPeriod c).name = "Period" := by
              simpa [cleanedPeriod] using hc
            simp [List.find?_cons, this]
      · constructor
        · intro h
          simp only [List.find?_cons, hc, decide_False] at h
          simp [walkFirstPeriod, hc, ih.1 h]
        · intro p hp
          simp only [List.find?_cons, hc, decide_False] at hp
          obtain ⟨cs', hw, hf⟩ := ih.2 p hp
          refine ⟨c :: cs', ?_, ?_⟩
          · simp [walkFirstPeriod, hc, hw]
          · simp [List.find?_cons, hc, hf]

/-! ## Small shared facts -/

theorem formatUTC_ne_empty (t : ℤ) : formatUTC t ≠ "" := by
  intro h
  have hl := congrArg String.length h
  have h1 : ("Z").length = 1 := rfl
  have h0 : ("" : String).length = 0 := rfl
  simp only [formatUTC, String.length_append] at hl
  omega

theorem getAttr_of_attrs_nil {n : XmlNode} (h : n.attrs = []) (k : String) :
    n.getAttr k = none := by
  cases n
  simp only [XmlNode.attrs] at h
  simp [XmlNode.getAttr, XmlNode.attrs, h]

theorem getAttr_SetIfPositive_ne {k a : String} (h : k ≠ a) (v : ℚ)
    (n : XmlNode) : (SetIfPositive a v n).getAttr k = n.getAttr k := by
  unfold SetIfPositive
  split
  · exact getAttr_setAttr_ne _ h _
  · rfl

theorem getAttr_SetIfPositive_self (a : String) (v : ℚ) (n : XmlNode)
    (hn : n.getAttr a = none) :
    (SetIfPositive a v n).getAttr a =
      if Positive v then some (SecondsToXmlDuration v) else none := by
  unfold SetIfPositive
  split <;> simp_all [getAttr_setAttr_self]

theorem getAttr_ite_setAttr_ne {c : Prop} [Decidable c] {k' k : String}
    (h : k' ≠ k) (n : XmlNode) (v : String) :
    (if c then n.setAttr k v else n).getAttr k' = n.getAttr k' := by
  split
  · exact getAttr_setAttr_ne _ h _
  · rfl

theorem getAttr_ite_setAttr_ne2 {c : Prop} [Decidable c] {k' k : String}
    (h : k' ≠ k) (n : XmlNode) (v : String) :
    (if c then n else n.setAttr k v).getAttr k' = n.getAttr k' := by
  split
  · rfl
  · exact getAttr_setAttr_ne _ h _

/-! ## Behaviour of `AddDynamicMpdInfo` -/

theorem addDynamic_fresh {b : MpdBuilder} (now : ℤ) (node : XmlNode) {t : ℚ}
    (hempty : b.availability_start_time = "")
    (ht : b.getEarliestTimestamp = some t) :
    (b.addDynamicMpdInfo now node).2.1.availability_start_time =
        formatUTC (now - ⌈t⌉) ∧
      (b.addDynamicMpdInfo now node).1.getAttr "availabilityStartTime" =
        some (formatUTC (now - ⌈t⌉)) := by
  have hfmt : xmlDateTimeNowWithOffset (-⌈t⌉) now = formatUTC (now - ⌈t⌉) := by
    simp [xmlDateTimeNowWithOffset, sub_eq_add_neg]
  have hne2 := formatUTC_ne_empty (now - ⌈t⌉)
  constructor <;>
  · simp only [MpdBuilder.addDynamicMpdInfo]
    by_cases hm : Positive b.mpd_options.mpd_params.minimum_update_period <;>
      simp [hempty, ht, hfmt, hne2, hm, getAttr_SetIfPositive_ne,
        getAttr_setAttr_ne, getAttr_setAttr_self]

theorem addDynamic_cached {b : MpdBuilder} (now : ℤ) (node : XmlNode)
    (hne : b.availability_start_time ≠ "") :
    (b.addDynamicMpdInfo now node).2.1.availability_start_time =
        b.availability_start_time ∧
      (b.addDynamicMpdInfo now node).1.getAttr "availabilityStartTime" =
        some b.availability_start_time := by
  constructor <;>
  · simp only [MpdBuilder.addDynamicMpdInfo]
    by_cases hm : Positive b.mpd_options.mpd_params.minimum_update_period <;>
      simp [hne, hm, getAttr_SetIfPositive_ne, getAttr_setAttr_ne,
        getAttr_setAttr_self]

theorem addDynamic_no_timestamp {b : MpdBuilder} (now : ℤ) (node : XmlNode)
    (hempty : b.availability_start_time = "")
    (hts : b.getEarliestTimestamp = none) :
    (b.addDynamicMpdInfo now node).2.1.availability_start_time = "" ∧
      (b.addDynamicMpdInfo now node).1.getAttr "availabilityStartTime" =
        node.getAttr "availabilityStartTime" ∧
      (LogLevel.error,
          "Could not determine the earliest segment presentation time for availabilityStartTime calculation.") ∈
        (b.addDynamicMpdInfo now node).2.2 := by
  refine ⟨?_, ?_, ?_⟩ <;>
  · simp only [MpdBuilder.addDynamicMpdInfo]
    by_cases hm : Positive b.mpd_options.mpd_params.minimum_update_period <;>
      simp [hempty, hts, hm, getAttr_SetIfPositive_ne, getAttr_setAttr_ne]

theorem addDynamic_minBuffer (b : MpdBuilder) (now : ℤ) (node : XmlNode) :
    (b.addDynamicMpdInfo now node).1.getAttr "minBufferTime" =
      node.getAttr "minBufferTime" := by
  simp only [MpdBuilder.addDynamicMpdInfo]
  by_cases hm : Positive b.mpd_options.mpd_params.minimum_update_period <;>
    simp [hm, getAttr_SetIfPositive_ne, getAttr_setAttr_ne,
      getAttr_ite_setAttr_ne, getAttr_ite_setAttr_ne2]

theorem addDynamic_gates (b : MpdBuilder) (now : ℤ) (node : XmlNode)
    (h1 : node.getAttr "minimumUpdatePeriod" = none)
    (h2 : node.getAttr "timeShiftBufferDepth" = none)
    (h3 : node.getAttr "suggestedPresentationDelay" = none) :
    ((b.addDynamicMpdInfo now node).1.getAttr "minimumUpdatePeriod" =
        if Positive b.mpd_options.mpd_params.minimum_update_period then
          some (SecondsToXmlDuration b.mpd_options.mpd_params.minimum_update_period)
        else none) ∧
      ((b.addDynamicMpdInfo now node).1.getAttr "timeShiftBufferDepth" =
        if Positive b.mpd_options.mpd_params.time_shift_buffer_depth then
          some (SecondsToXmlDuration b.mpd_options.mpd_params.time_shift_buffer_depth)
        else none) ∧
      ((b.addDynamicMpdInfo now node).1.getAttr "suggestedPresentationDelay" =
        if Positive b.mpd_options.mpd_params.suggested_presentation_delay then
          some (SecondsToXmlDuration b.mpd_options.mpd_params.suggested_presentation_delay)
        else none) := by
  refine ⟨?_, ?_, ?_⟩ <;>
  · simp only [MpdBuilder.addDynamicMpdInfo]
    by_cases hm : Positive b.mpd_options.mpd_params.minimum_update_period <;>
      simp [hm, getAttr_SetIfPositive_ne, getAttr_setAttr_ne,
        getAttr_ite_setAttr_ne, getAttr_ite_setAttr_ne2, getAttr_setAttr_self,
        getAttr_SetIfPositive_self, h1, h2, h3]

/-! ## Concrete fixtures -/

/-- A fully permissive XML environment. -/
def envOk : Env :=
  ⟨fun _ _ => true, "1.2.3", "https://github.com/google/shaka-packager"⟩

/-- A representation leaf with a `2`-second duration hint. -/
def testRep1 : XmlNode :=
  .mk "Representation" [("id", "1"), ("duration", "2")] "" []

/-- A representation leaf with a `7`-second duration hint. -/
def testRep2 : XmlNode := .mk "Representation" [("duration", "7")] "" []

/-- A representation leaf with a `3`-second duration hint. -/
def testRep3 : XmlNode := .mk "Representation" [("duration", "3")] "" []

/-- A `Period` subtree with two adaptation sets over the three leaves. -/
def testPeriodNode : XmlNode :=
  .mk "Period" [] ""
    [.mk "AdaptationSet" [] "" [testRep1, testRep2],
     .mk "AdaptationSet" [] "" [testRep3]]

/-- A period collaborator rendering `testPeriodNode` and reporting an
earliest timestamp of 5.4 seconds. -/
def testPeriod : Period := ⟨some testPeriodNode, some (27 / 5)⟩

/-- Parameters: positive buffer time, zero update period, positive
buffer depth, negative presentation delay. -/
def testParams : MpdParams := ⟨2, 0, 5, -1⟩

/-- A dynamic live builder with one period and an empty cache. -/
def dynBuilder : MpdBuilder :=
  ⟨⟨.kLive, .kDynamic, testParams⟩, ["http://base.example/"], [testPeriod], ""⟩

/-- A dynamic builder with no periods and an empty cache. -/
def emptyDynBuilder : MpdBuilder :=
  ⟨⟨.kLive, .kDynamic, testParams⟩, [], [], ""⟩

/-! ## Claims -/

/-- Claim C1: in a dynamic-type serialization whose cached
availability-start-time is still empty and whose first period reports an
earliest timestamp `t`, the builder caches and attaches
`availabilityStartTime` equal to the clock instant minus `⌈t⌉` seconds,
formatted as the UTC date-time string. -/
theorem claim1_fresh_availability_start_time
    (b : MpdBuilder) (now : ℤ) (node : XmlNode) (t : ℚ)
    (_hty : b.mpd_options.mpd_type = MpdType.kDynamic)
    (hempty : b.availability_start_time = "")
    (ht : b.getEarliestTimestamp = some t) :
    (b.addDynamicMpdInfo now node).2.1.availability_start_time =
        formatUTC (now - ⌈t⌉) ∧
      (b.addDynamicMpdInfo now node).1.getAttr "availabilityStartTime" =
        some (formatUTC (now - ⌈t⌉)) :=
  addDynamic_fresh now node hempty ht

/-- Witness for C1 at earliest timestamp 5.4 and a fixed now `T`:
the cached value is `T` minus 6 seconds (ceiling applied). -/
theorem claim1_fresh_availability_start_time_witness :
    (dynBuilder.addDynamicMpdInfo 1700000000 (XmlNode.mk "MPD" [] "" [])).2.1.availability_start_time =
        formatUTC (1700000000 - 6) ∧
      formatUTC (1700000000 - 6) = "2023-11-14T22:13:14Z" := by
  have h := (claim1_fresh_availability_start_time dynBuilder 1700000000
    (XmlNode.mk "MPD" [] "" []) (27 / 5) rfl rfl rfl).1
  have hc : (⌈(27 / 5 : ℚ)⌉ : ℤ) = 6 := by
    rw [Int.ceil_eq_iff]
    norm_num
  rw [hc] at h
  exact ⟨h, by decide⟩

/-- Claim C2: once the cached availability-start-time is non-empty,
every serialization leaves it unchanged and attaches exactly the cached
string, for any clock value. -/
theorem claim2_cached_availability_stable
    (b : MpdBuilder) (env : Env) (now : ℤ)
    (hty : b.mpd_options.mpd_type = MpdType.kDynamic)
    (hne : b.availability_start_time ≠ "") :
    (b.generateMpd env now).2.1.availability_start_time =
        b.availability_start_time ∧
      ∀ doc b2 log, b.generateMpd env now = (.success doc, b2, log) →
        doc.root.getAttr "availabilityStartTime" =
          some b.availability_start_time := by
  constructor
  · simp only [MpdBuilder.generateMpd]
    split
    · rfl
    · split
      · rfl
      · split
        · rfl
        · simp only [MpdBuilder.finishMpd, hty]
          exact (addDynamic_cached now _ hne).1
        · simp only [MpdBuilder.finishMpd, hty]
          exact (addDynamic_cached now _ hne).1
  · intro doc b2 log h
    obtain ⟨mpd, uri, hattrs, hname, hpuri, hfin⟩ := generateMpd_success_inv h
    simp only [MpdBuilder.finishMpd, hty] at hfin
    injection congrArg Prod.fst hfin with hdoc
    rw [← hdoc]
    exact (addDynamic_cached now _ hne).2

/-- Witness for C2: with a pre-filled cache, two serializations at
different clock instants both attach the cached string. -/
theorem claim2_cached_availability_stable_witness :
    (({ dynBuilder with availability_start_time := "2020-01-01T00:00:00Z" } :
        MpdBuilder).generateMpd envOk 1700000000).2.1.availability_start_time =
      "2020-01-01T00:00:00Z" :=
  (claim2_cached_availability_stable
    { dynBuilder with availability_start_time := "2020-01-01T00:00:00Z" }
    envOk 1700000000 rfl (by decide)).1

/-- Claim C7: with an empty cache and zero periods, dynamic
serialization invokes the earliest-timestamp query while the query's
`DCHECK` precondition (a non-empty period list, needed for the
`periods_.front()` access) is violated. -/
theorem claim7_earliest_timestamp_precondition_violated
    (b : MpdBuilder)
    (_hty : b.mpd_options.mpd_type = MpdType.kDynamic)
    (hempty : b.availability_start_time = "")
    (hper : b.periods = []) :
    b.invokesEarliestTimestampQuery = true ∧ ¬ b.GetEarliestTimestampPre := by
  constructor
  · simp [MpdBuilder.invokesEarliestTimestampQuery, hempty]
  · simp [MpdBuilder.GetEarliestTimestampPre, hper]

/-- Witness for C7 on a concrete dynamic builder with no periods. -/
theorem claim7_earliest_timestamp_precondition_violated_witness :
    emptyDynBuilder.invokesEarliestTimestampQuery = true ∧
      ¬ emptyDynBuilder.GetEarliestTimestampPre :=
  claim7_earliest_timestamp_precondition_violated emptyDynBuilder rfl rfl rfl

/-- `representationLeaves` depends only on the children of the root. -/
theorem representationLeaves_congr {n m : XmlNode} (h : n.children = m.children) :
    representationLeaves n = representationLeaves m := by
  simp [representationLeaves, findPeriodChild, h]

/-- Claim C3: static serialization always emits
`mediaPresentationDuration`, equal to the ISO-8601 formatting of the
maximum `duration` hint over the representation leaves two levels below
the first `Period` child, stripping the scratch attribute from every
visited leaf that carried one; with no `Period` child the duration is
zero and a warning diagnostic is reported. -/
theorem claim3_static_duration_and_cleanup (node : XmlNode) :
    ((AddStaticMpdInfo node).1.getAttr "mediaPresentationDuration" =
        some (SecondsToXmlDuration (maxDurationHint node))) ∧
      representationLeaves (AddStaticMpdInfo node).1 =
        (representationLeaves node).map cleanHint ∧
      (findPeriodChild node = none →
        (AddStaticMpdInfo node).1.getAttr "mediaPresentationDuration" =
            some (SecondsToXmlDuration 0) ∧
          (LogLevel.warning, "No Period node found. Set MPD duration to 0.") ∈
            (AddStaticMpdInfo node).2) := by
  have hch1 : (node.setAttr "type" "static").children = node.children :=
    children_setAttr _ _ _
  cases hf : findPeriodChild node with
  | none =>
      have hwalk : walkFirstPeriod node.children = none :=
        (walkFirstPeriod_spec node.children).1 (by simpa [findPeriodChild] using hf)
      have hmax : maxDurationHint node = 0 := by
        simp [maxDurationHint, representationLeaves, hf]
      have h1 : (AddStaticMpdInfo node).1.getAttr "mediaPresentationDuration" =
          some (SecondsToXmlDuration 0) := by
        simp only [AddStaticMpdInfo, GetStaticMpdDuration, hch1, hwalk]
        simp [getAttr_setAttr_self]
      have hchres : (AddStaticMpdInfo node).1.children = node.children := by
        simp only [AddStaticMpdInfo, GetStaticMpdDuration, hch1, hwalk]
        rw [children_setAttr, hch1]
      refine ⟨by rw [hmax]; exact h1, ?_, fun _ => ⟨h1, ?_⟩⟩
      · rw [representationLeaves_congr (m := node) hchres]
        simp [representationLeaves, hf]
      · simp only [AddStaticMpdInfo, GetStaticMpdDuration, hch1, hwalk]
        simp
  | some p =>
      obtain ⟨cs2, hw, hfind⟩ :=
        (walkFirstPeriod_spec node.children).2 p (by simpa [findPeriodChild] using hf)
      have hmax : maxDurationHint node =
          ((p.children.map (fun a =>
            a.children.filterMap GetDurationAttribute)).flatten).foldl max 0 := by
        simp [maxDurationHint, representationLeaves, hf, List.filterMap_flatten,
          List.map_map, Function.comp_def]
      refine ⟨?_, ?_, ?_⟩
      · simp only [AddStaticMpdInfo, GetStaticMpdDuration, hch1, hw]
        simp [getAttr_setAttr_self, hmax]
      · have hchres : (AddStaticMpdInfo node).1.children = cs2 := by
          simp only [AddStaticMpdInfo, GetStaticMpdDuration, hch1, hw]
          rfl
        have hlv : representationLeaves (AddStaticMpdInfo node).1 =
            ((cleanedPeriod p).children.map XmlNode.children).flatten := by
          simp [representationLeaves, findPeriodChild, hchres, hfind]
        rw [hlv]
        simp [cleanedPeriod, representationLeaves, hf, List.map_map,
          Function.comp_def, XmlNode.children, List.map_flatten]
      · intro hnone
        exact Option.noConfusion hnone

/-- Witness for C3: on the concrete tree with hints 2, 7 and 3 the
duration is `PT7S`; on a childless root the duration is zero and the
warning is reported. -/
theorem claim3_static_duration_and_cleanup_witness :
    (AddStaticMpdInfo (XmlNode.mk "MPD" [] "" [testPeriodNode])).1.getAttr
        "mediaPresentationDuration" = some "PT7S" ∧
      (LogLevel.warning, "No Period node found. Set MPD duration to 0.") ∈
        (AddStaticMpdInfo (XmlNode.mk "MPD" [] "" [])).2 := by
  constructor
  · have h := (claim3_static_duration_and_cleanup
      (XmlNode.mk "MPD" [] "" [testPeriodNode])).1
    rw [h]
    have hv : SecondsToXmlDuration
        (maxDurationHint (XmlNode.mk "MPD" [] "" [testPeriodNode])) = "PT7S" := by
      decide
    rw [hv]
  · exact ((claim3_static_duration_and_cleanup
      (XmlNode.mk "MPD" [] "" [])).2.2 rfl).2

/-- `finishMpd` never reports a child-append failure: its outcomes are
success or a `NOTREACHED` defect. -/
theorem finishMpd_ne_failure (b : MpdBuilder) (env : Env) (now : ℤ)
    (mpd : XmlNode) : (b.finishMpd env now mpd).1 ≠ GenRes.failure := by
  simp only [MpdBuilder.finishMpd]
  split <;> simp

/-- A failed generation leaves the builder untouched and logs nothing:
failures arise only in the child-append stage, before any state
mutation. -/
theorem generateMpd_failure_inv {b : MpdBuilder} {env : Env} {now : ℤ}
    {b2 : MpdBuilder} {log : List LogEntry}
    (h : b.generateMpd env now = (.failure, b2, log)) : b2 = b ∧ log = [] := by
  cases hb : appendBaseUrls env (XmlNode.mk "MPD" [] "" []) b.base_urls with
  | none =>
      simp only [MpdBuilder.generateMpd, hb] at h
      injection h with _ hrest
      injection hrest with hb2 hlog
      exact ⟨hb2.symm, hlog.symm⟩
  | some m1 =>
      cases hp2 : appendPeriods env m1 b.periods with
      | none =>
          simp only [MpdBuilder.generateMpd, hb, hp2] at h
          injection h with _ hrest
          injection hrest with hb2 hlog
          exact ⟨hb2.symm, hlog.symm⟩
      | some m2 =>
          simp only [MpdBuilder.generateMpd, hb, hp2] at h
          cases hdp : b.mpd_options.dash_profile with
          | unknown v =>
              simp only [hdp] at h
              exact absurd h (by simp)
          | kOnDemand =>
              simp only [hdp] at h
              exact absurd (congrArg Prod.fst h) (finishMpd_ne_failure _ _ _ _)
          | kLive =>
              simp only [hdp] at h
              exact absurd (congrArg Prod.fst h) (finishMpd_ne_failure _ _ _ _)

/-- Claim C5: if any base-URL child append fails or any period fails to
produce or append its subtree, serialization returns failure with the
caller's output string and the builder state untouched — no partial
manifest is ever produced. -/
theorem claim5_serialization_all_or_nothing
    (env : Env) (now : ℤ) (b : MpdBuilder) (output : String) :
    ((∃ p ∈ b.periods, p.getXml = none) →
        b.ToString env now output = (some (false, output), b, [])) ∧
      ∀ flag out b2 log,
        b.ToString env now output = (some (flag, out), b2, log) →
          flag = false → out = output ∧ b2 = b := by
  constructor
  · intro h
    simp only [MpdBuilder.ToString, MpdBuilder.generateMpd]
    cases hb : appendBaseUrls env (XmlNode.mk "MPD" [] "" []) b.base_urls with
    | none => simp
    | some m1 => simp [appendPeriods_none h m1]
  · intro flag out b2 log h hflag
    subst hflag
    simp only [MpdBuilder.ToString] at h
    rcases hg : b.generateMpd env now with ⟨res, b3, log3⟩
    rw [hg] at h
    cases res with
    | fatal msg => exact absurd (congrArg (fun x => x.1) h) (by simp)
    | failure =>
        obtain ⟨hb3, _⟩ := generateMpd_failure_inv hg
        have h1 := congrArg (fun x => x.1) h
        simp only at h1
        injection h1 with h1
        injection h1 with _ h1
        have h2 := congrArg (fun x => x.2.1) h
        simp only at h2
        exact ⟨h1.symm, h2 ▸ hb3⟩
    | success doc => exact absurd (congrArg (fun x => x.1) h) (by simp)

/-- Witness for C5: a builder whose only period produces no subtree
serializes to failure, leaving the output string untouched. -/
theorem claim5_serialization_all_or_nothing_witness :
    ({ dynBuilder with periods := [⟨none, none⟩] } : MpdBuilder).ToString envOk
        1700000000 "untouched" =
      (some (false, "untouched"), { dynBuilder with periods := [⟨none, none⟩] },
        []) :=
  (claim5_serialization_all_or_nothing envOk 1700000000
    { dynBuilder with periods := [⟨none, none⟩] } "untouched").1
    ⟨⟨none, none⟩, by simp, rfl⟩

/-- `AddCommonMpdInfo` leaves every attribute other than `minBufferTime`
unchanged. -/
theorem getAttr_AddCommonMpdInfo_ne {k : String} (h : k ≠ "minBufferTime")
    (options : MpdOptions) (node : XmlNode) :
    (AddCommonMpdInfo options node).1.getAttr k = node.getAttr k := by
  unfold AddCommonMpdInfo
  split
  · exact getAttr_setAttr_ne _ h _
  · rfl

/-- `AddCommonMpdInfo` sets `minBufferTime` exactly when the configured
value is strictly positive. -/
theorem getAttr_AddCommonMpdInfo_self (options : MpdOptions) (node : XmlNode)
    (hn : node.getAttr "minBufferTime" = none) :
    (AddCommonMpdInfo options node).1.getAttr "minBufferTime" =
      if Positive options.mpd_params.min_buffer_time then
        some (SecondsToXmlDuration options.mpd_params.min_buffer_time)
      else none := by
  unfold AddCommonMpdInfo
  split <;> simp_all [getAttr_setAttr_self]

/-- The namespace/profile decoration of the root leaves any other
attribute unchanged. -/
theorem getAttr_nsProfile_ne {k : String} (h1 : k ≠ "xmlns")
    (h2 : k ≠ "xmlns:xsi") (h3 : k ≠ "xmlns:xlink")
    (h4 : k ≠ "xsi:schemaLocation") (h5 : k ≠ "xmlns:cenc")
    (h6 : k ≠ "profiles") (mpd : XmlNode) (uri : String) :
    ((AddMpdNameSpaceInfo mpd).setAttr "profiles" uri).getAttr k =
      mpd.getAttr k := by
  unfold AddMpdNameSpaceInfo
  rw [getAttr_setAttr_ne _ h6, getAttr_setAttr_ne _ h5, getAttr_setAttr_ne _ h4,
    getAttr_setAttr_ne _ h3, getAttr_setAttr_ne _ h2, getAttr_setAttr_ne _ h1]

/-- Claim C6: in a dynamic-type serialization with an empty cache whose
earliest presentation timestamp is unavailable, the
`availabilityStartTime` attribute is omitted, an error-level diagnostic
is reported, and manifest emission still completes successfully. -/
theorem claim6_missing_timestamp_degraded
    (b : MpdBuilder) (env : Env) (now : ℤ)
    (hty : b.mpd_options.mpd_type = MpdType.kDynamic)
    (hprof : (profileUri b.mpd_options.dash_profile).isSome)
    (hempty : b.availability_start_time = "")
    (hts : b.getEarliestTimestamp = none)
    (henv : ∀ x y, env.addChildOk x y = true)
    (hx : ∀ p ∈ b.periods, p.getXml ≠ none) :
    ∃ doc b2 log, b.generateMpd env now = (.success doc, b2, log) ∧
      doc.root.getAttr "availabilityStartTime" = none ∧
      (LogLevel.error,
          "Could not determine the earliest segment presentation time for availabilityStartTime calculation.") ∈
        log := by
  obtain ⟨m1, h1⟩ := appendBaseUrls_total henv (XmlNode.mk "MPD" [] "" []) b.base_urls
  obtain ⟨m2, h2⟩ := appendPeriods_total henv hx m1
  have hattrs : m2.attrs = [] := by
    rw [(appendPeriods_pres h2).1, (appendBaseUrls_pres h1).1]
    rfl
  have hmain : ∀ uri,
      ((AddMpdNameSpaceInfo m2).setAttr "profiles" uri).getAttr
        "availabilityStartTime" = none := fun uri => by
    rw [getAttr_nsProfile_ne (by decide) (by decide) (by decide) (by decide)
      (by decide) (by decide)]
    exact getAttr_of_attrs_nil hattrs _
  have hstep : ∀ uri,
      ∃ doc b2 log,
        b.finishMpd env now ((AddMpdNameSpaceInfo m2).setAttr "profiles" uri) =
            (.success doc, b2, log) ∧
          doc.root.getAttr "availabilityStartTime" = none ∧
          (LogLevel.error,
              "Could not determine the earliest segment presentation time for availabilityStartTime calculation.") ∈
            log := fun uri => by
    simp only [MpdBuilder.finishMpd, hty]
    refine ⟨_, _, _, rfl, ?_, ?_⟩
    · rw [(addDynamic_no_timestamp now _ hempty hts).2.1,
        getAttr_AddCommonMpdInfo_ne (by decide)]
      exact hmain uri
    · exact List.mem_append_right _ (addDynamic_no_timestamp now _ hempty hts).2.2
  cases hdp : b.mpd_options.dash_profile with
  | unknown v => rw [hdp] at hprof; simp [profileUri] at hprof
  | kOnDemand =>
      obtain ⟨doc, b2, log, hfin, hnone, hmem⟩ :=
        hstep "urn:mpeg:dash:profile:isoff-on-demand:2011"
      exact ⟨doc, b2, log, by
        simp only [MpdBuilder.generateMpd, h1, h2, hdp]
        exact hfin, hnone, hmem⟩
  | kLive =>
      obtain ⟨doc, b2, log, hfin, hnone, hmem⟩ :=
        hstep "urn:mpeg:dash:profile:isoff-live:2011"
      exact ⟨doc, b2, log, by
        simp only [MpdBuilder.generateMpd, h1, h2, hdp]
        exact hfin, hnone, hmem⟩

/-- Witness for C6 on a concrete dynamic builder whose only period
reports no timestamp. -/
theorem claim6_missing_timestamp_degraded_witness :
    ∃ doc b2 log,
      ({ dynBuilder with periods := [⟨some testPeriodNode, none⟩] } :
          MpdBuilder).generateMpd envOk 1700000000 = (.success doc, b2, log) ∧
        doc.root.getAttr "availabilityStartTime" = none ∧
        (LogLevel.error,
            "Could not determine the earliest segment presentation time for availabilityStartTime calculation.") ∈
          log :=
  claim6_missing_timestamp_degraded
    { dynBuilder with periods := [⟨some testPeriodNode, none⟩] } envOk
    1700000000 rfl (by decide) rfl rfl (fun _ _ => rfl)
    (by intro p hp; simp at hp; subst hp; simp)

/-- Claim C10: a profile value that is neither on-demand nor live, or a
manifest-type value that is neither static nor dynamic, makes generation
fail loudly and immediately (`NOTREACHED`, modelled from the spec as an
immediate fatal failure), so no manifest text is produced. -/
theorem claim10_unknown_enum_fails_loudly
    (b : MpdBuilder) (env : Env) (now : ℤ) (output : String)
    (henv : ∀ x y, env.addChildOk x y = true)
    (hx : ∀ p ∈ b.periods, p.getXml ≠ none)
    (h : (∃ v, b.mpd_options.dash_profile = DashProfile.unknown v) ∨
      ((profileUri b.mpd_options.dash_profile).isSome ∧
        ∃ w, b.mpd_options.mpd_type = MpdType.unknown w)) :
    (∃ msg, (b.generateMpd env now).1 = .fatal msg) ∧
      (b.ToString env now output).1 = none := by
  obtain ⟨m1, h1⟩ := appendBaseUrls_total henv (XmlNode.mk "MPD" [] "" []) b.base_urls
  obtain ⟨m2, h2⟩ := appendPeriods_total henv hx m1
  have hmain : ∃ msg, (b.generateMpd env now).1 = .fatal msg := by
    rcases h with ⟨v, hv⟩ | ⟨hprof, w, hw⟩
    · exact ⟨"Unknown DASH profile: " ++ toString v, by
        simp [MpdBuilder.generateMpd, h1, h2, hv]⟩
    · cases hdp : b.mpd_options.dash_profile with
      | unknown v => rw [hdp] at hprof; simp [profileUri] at hprof
      | kOnDemand =>
          exact ⟨"Unknown MPD type: " ++ toString w, by
            simp [MpdBuilder.generateMpd, h1, h2, hdp, MpdBuilder.finishMpd, hw]⟩
      | kLive =>
          exact ⟨"Unknown MPD type: " ++ toString w, by
            simp [MpdBuilder.generateMpd, h1, h2, hdp, MpdBuilder.finishMpd, hw]⟩
  refine ⟨hmain, ?_⟩
  obtain ⟨msg, hm⟩ := hmain
  simp only [MpdBuilder.ToString]
  rcases hg : b.generateMpd env now with ⟨res, b3, log3⟩
  rw [hg] at hm
  simp only at hm
  subst hm
  rfl

/-- Witness for C10 on a builder configured with an out-of-range
profile enumerator. -/
theorem claim10_unknown_enum_fails_loudly_witness :
    (∃ msg,
      (({ dynBuilder with
            mpd_options := ⟨DashProfile.unknown 7, MpdType.kDynamic, testParams⟩ } :
          MpdBuilder).generateMpd envOk 0).1 = .fatal msg) ∧
      (({ dynBuilder with
            mpd_options := ⟨DashProfile.unknown 7, MpdType.kDynamic, testParams⟩ } :
          MpdBuilder).ToString envOk 0 "out").1 = none :=
  claim10_unknown_enum_fails_loudly
    { dynBuilder with
        mpd_options := ⟨DashProfile.unknown 7, MpdType.kDynamic, testParams⟩ }
    envOk 0 "out" (fun _ _ => rfl)
    (by intro p hp; simp [dynBuilder] at hp; subst hp; simp [testPeriod])
    (Or.inl ⟨7, rfl⟩)

/-- `AddStaticMpdInfo` leaves attributes other than `type` and
`mediaPresentationDuration` unchanged. -/
theorem getAttr_AddStaticMpdInfo_ne {k : String} (h1 : k ≠ "type")
    (h2 : k ≠ "mediaPresentationDuration") (node : XmlNode) :
    (AddStaticMpdInfo node).1.getAttr k = node.getAttr k := by
  unfold AddStaticMpdInfo
  rw [getAttr_setAttr_ne _ h2,
    getAttr_congr k (attrs_GetStaticMpdDuration (node.setAttr "type" "static")).1,
    getAttr_setAttr_ne _ h1]

/-- Claim C4: for each of the four configured numeric parameters, the
corresponding manifest attribute (`minBufferTime` always; and in dynamic
mode `minimumUpdatePeriod`, `timeShiftBufferDepth`,
`suggestedPresentationDelay`) is present on the emitted root with the
ISO-8601 duration of the value if and only if the value is strictly
positive. -/
theorem claim4_positive_gated_attributes
    (b : MpdBuilder) (env : Env) (now : ℤ) (doc : MpdDoc) (b2 : MpdBuilder)
    (log : List LogEntry)
    (h : b.generateMpd env now = (.success doc, b2, log)) :
    (doc.root.getAttr "minBufferTime" =
        if Positive b.mpd_options.mpd_params.min_buffer_time then
          some (SecondsToXmlDuration b.mpd_options.mpd_params.min_buffer_time)
        else none) ∧
      (b.mpd_options.mpd_type = MpdType.kDynamic →
        (doc.root.getAttr "minimumUpdatePeriod" =
            if Positive b.mpd_options.mpd_params.minimum_update_period then
              some (SecondsToXmlDuration
                b.mpd_options.mpd_params.minimum_update_period)
            else none) ∧
          (doc.root.getAttr "timeShiftBufferDepth" =
            if Positive b.mpd_options.mpd_params.time_shift_buffer_depth then
              some (SecondsToXmlDuration
                b.mpd_options.mpd_params.time_shift_buffer_depth)
            else none) ∧
          (doc.root.getAttr "suggestedPresentationDelay" =
            if Positive b.mpd_options.mpd_params.suggested_presentation_delay then
              some (SecondsToXmlDuration
                b.mpd_options.mpd_params.suggested_presentation_delay)
            else none)) := by
  obtain ⟨mpd, uri, hattrs, hname, hpuri, hfin⟩ := generateMpd_success_inv h
  have hbase : ∀ k, k ≠ "xmlns" → k ≠ "xmlns:xsi" → k ≠ "xmlns:xlink" →
      k ≠ "xsi:schemaLocation" → k ≠ "xmlns:cenc" → k ≠ "profiles" →
      ((AddMpdNameSpaceInfo mpd).setAttr "profiles" uri).getAttr k = none := by
    intro k a1 a2 a3 a4 a5 a6
    rw [getAttr_nsProfile_ne a1 a2 a3 a4 a5 a6]
    exact getAttr_of_attrs_nil hattrs _
  have hc_mb : (AddCommonMpdInfo b.mpd_options
      ((AddMpdNameSpaceInfo mpd).setAttr "profiles" uri)).1.getAttr
        "minBufferTime" =
      if Positive b.mpd_options.mpd_params.min_buffer_time then
        some (SecondsToXmlDuration b.mpd_options.mpd_params.min_buffer_time)
      else none :=
    getAttr_AddCommonMpdInfo_self _ _
      (hbase _ (by decide) (by decide) (by decide) (by decide) (by decide)
        (by decide))
  have hc_rest : ∀ k, k ≠ "minBufferTime" → k ≠ "xmlns" → k ≠ "xmlns:xsi" →
      k ≠ "xmlns:xlink" → k ≠ "xsi:schemaLocation" → k ≠ "xmlns:cenc" →
      k ≠ "profiles" →
      (AddCommonMpdInfo b.mpd_options
        ((AddMpdNameSpaceInfo mpd).setAttr "profiles" uri)).1.getAttr k =
        none := by
    intro k a0 a1 a2 a3 a4 a5 a6
    rw [getAttr_AddCommonMpdInfo_ne a0]
    exact hbase k a1 a2 a3 a4 a5 a6
  simp only [MpdBuilder.finishMpd] at hfin
  cases hty : b.mpd_options.mpd_type with
  | kStatic =>
      simp only [hty] at hfin
      injection congrArg Prod.fst hfin with hdoc
      have hroot : doc.root = (AddStaticMpdInfo (AddCommonMpdInfo b.mpd_options
          ((AddMpdNameSpaceInfo mpd).setAttr "profiles" uri)).1).1 := by
        rw [← hdoc]
      constructor
      · rw [hroot, getAttr_AddStaticMpdInfo_ne (by decide) (by decide)]
        exact hc_mb
      · intro hdyn
        exact MpdType.noConfusion hdyn
  | kDynamic =>
      simp only [hty] at hfin
      injection congrArg Prod.fst hfin with hdoc
      have hroot : doc.root = (b.addDynamicMpdInfo now
          (AddCommonMpdInfo b.mpd_options
            ((AddMpdNameSpaceInfo mpd).setAttr "profiles" uri)).1).1 := by
        rw [← hdoc]
      have hgates := addDynamic_gates b now
        (AddCommonMpdInfo b.mpd_options
          ((AddMpdNameSpaceInfo mpd).setAttr "profiles" uri)).1
        (hc_rest _ (by decide) (by decide) (by decide) (by decide) (by decide)
          (by decide) (by decide))
        (hc_rest _ (by decide) (by decide) (by decide) (by decide) (by decide)
          (by decide) (by decide))
        (hc_rest _ (by decide) (by decide) (by decide) (by decide) (by decide)
          (by decide) (by decide))
      refine ⟨?_, fun _ => ⟨?_, ?_, ?_⟩⟩
      · rw [hroot, addDynamic_minBuffer]
        exact hc_mb
      · rw [hroot]; exact hgates.1
      · rw [hroot]; exact hgates.2.1
      · rw [hroot]; exact hgates.2.2
  | unknown w =>
      simp only [hty] at hfin
      exact absurd (congrArg Prod.fst hfin) (by simp)

/-- A dynamic builder with an already-cached availability start time and
no periods, used to instantiate serialization successes concretely. -/
def dynCachedBuilder : MpdBuilder :=
  ⟨⟨.kLive, .kDynamic, testParams⟩, [], [], "2020-01-01T00:00:00Z"⟩

/-- The document `dynCachedBuilder` serializes to at clock 0. -/
theorem dynCachedBuilder_generates :
    dynCachedBuilder.generateMpd envOk 0 =
      (.success
        ⟨XmlNode.mk "MPD"
          [("xmlns", "urn:mpeg:dash:schema:mpd:2011"),
           ("xmlns:xsi", "http://www.w3.org/2001/XMLSchema-instance"),
           ("xmlns:xlink", "http://www.w3.org/1999/xlink"),
           ("xsi:schemaLocation", "urn:mpeg:dash:schema:mpd:2011 DASH-MPD.xsd"),
           ("xmlns:cenc", "urn:mpeg:cenc:2013"),
           ("profiles", "urn:mpeg:dash:profile:isoff-live:2011"),
           ("minBufferTime", "PT2S"),
           ("type", "dynamic"),
           ("publishTime", "1970-01-01T00:00:00Z"),
           ("availabilityStartTime", "2020-01-01T00:00:00Z"),
           ("timeShiftBufferDepth", "PT5S")] "" [],
         some "Generated with https://github.com/google/shaka-packager version 1.2.3"⟩,
        dynCachedBuilder,
        [(LogLevel.warning,
          "The profile is dynamic but no minimumUpdatePeriod specified.")]) := by
  rfl

/-- Witness for C4 on `dynCachedBuilder`: the two positive parameters
produce attributes, the zero and negative ones do not. -/
theorem claim4_positive_gated_attributes_witness :
    ∃ doc b2 log,
      dynCachedBuilder.generateMpd envOk 0 = (.success doc, b2, log) ∧
        doc.root.getAttr "minBufferTime" = some "PT2S" ∧
        doc.root.getAttr "minimumUpdatePeriod" = none ∧
        doc.root.getAttr "timeShiftBufferDepth" = some "PT5S" ∧
        doc.root.getAttr "suggestedPresentationDelay" = none := by
  refine ⟨_, _, _, dynCachedBuilder_generates, ?_⟩
  have h := claim4_positive_gated_attributes dynCachedBuilder envOk 0 _ _ _
    dynCachedBuilder_generates
  have h2 := h.2 rfl
  refine ⟨?_, ?_, ?_, ?_⟩
  · rw [h.1]; decide
  · rw [h2.1]; decide
  · rw [h2.2.1]; decide
  · rw [h2.2.2]; decide

/-- Claim C8: the manifest path is stripped of a leading `file://`;
when the stripped path and its containing directory are non-empty, each
present field of the record is rewritten by the relativization policy
(relative components joined by `/` for a descendant of the manifest
directory, the original path with separators normalized to `/`
otherwise); absent fields, and the whole record when the stripped path
or directory is empty, are left untouched. -/
theorem claim8_paths_relative_to_mpd (mpd_path : String) (mi : MediaInfo) :
    (strippedManifestPath mpd_path = "" →
        MakePathsRelativeToMpd mpd_path mi = mi) ∧
      (dirNameWithSeparator (strippedManifestPath mpd_path) = "" →
        MakePathsRelativeToMpd mpd_path mi = mi) ∧
      (strippedManifestPath mpd_path ≠ "" →
        dirNameWithSeparator (strippedManifestPath mpd_path) ≠ "" →
        MakePathsRelativeToMpd mpd_path mi =
          { media_file_name := mi.media_file_name.map
              (fun s => MakePathRelative s
                (dirNameWithSeparator (strippedManifestPath mpd_path)))
            init_segment_name := mi.init_segment_name.map
              (fun s => MakePathRelative s
                (dirNameWithSeparator (strippedManifestPath mpd_path)))
            segment_template := mi.segment_template.map
              (fun s => MakePathRelative s
                (dirNameWithSeparator (strippedManifestPath mpd_path))) }) ∧
      (∀ s dir rel, appendRelativePath dir s = some rel →
          MakePathRelative s dir = String.intercalate "/" rel) ∧
      (∀ s dir, appendRelativePath dir s = none →
          MakePathRelative s dir = normalizeSep s) := by
  refine ⟨?_, ?_, ?_, ?_, ?_⟩
  · intro h
    simp only [MakePathsRelativeToMpd]
    rw [show (if strHasPrefix "file://" mpd_path then
        strDrop mpd_path ("file://").length else mpd_path) =
      strippedManifestPath mpd_path from rfl, h]
    simp
  · intro h
    simp only [MakePathsRelativeToMpd]
    rw [show (if strHasPrefix "file://" mpd_path then
        strDrop mpd_path ("file://").length else mpd_path) =
      strippedManifestPath mpd_path from rfl, h]
    split
    · simp
    · rfl
  · intro h1 h2
    simp only [MakePathsRelativeToMpd]
    rw [show (if strHasPrefix "file://" mpd_path then
        strDrop mpd_path ("file://").length else mpd_path) =
      strippedManifestPath mpd_path from rfl]
    rw [if_pos h1, if_pos h2]
  · intro s dir rel hrel
    simp [MakePathRelative, hrel]
  · intro s dir hrel
    simp [MakePathRelative, hrel]

/-- Witness for C8 on the specification's example: a descendant media
path becomes relative, one outside the manifest directory stays
absolute, an absent field stays absent. -/
theorem claim8_paths_relative_to_mpd_witness :
    MakePathsRelativeToMpd "/a/b/manifest.mpd"
        ⟨some "/a/b/c/seg.mp4", some "/x/y/seg.mp4", none⟩ =
      ⟨some "c/seg.mp4", some "/x/y/seg.mp4", none⟩ := by
  have h := (claim8_paths_relative_to_mpd "/a/b/manifest.mpd"
    ⟨some "/a/b/c/seg.mp4", some "/x/y/seg.mp4", none⟩).2.2.1
    (by decide) (by decide)
  rw [h]
  decide

/-! ## Attribute-key uniqueness -/

/-- The attribute names of an element, with no duplicates. -/
def NodupKeys (n : XmlNode) : Prop :=
  (n.attrs.map Prod.fst).Nodup

theorem nodup_keys_setAttrList {l : List (String × String)} (k v : String)
    (h : (l.map Prod.fst).Nodup) :
    ((setAttrList k v l).map Prod.fst).Nodup := by
  rw [keys_setAttrList]
  split
  · exact h
  · rename_i hm
    simp [List.nodup_append, h, hm]

theorem NodupKeys_setAttr {n : XmlNode} (h : NodupKeys n) (k v : String) :
    NodupKeys (n.setAttr k v) := by
  unfold NodupKeys at h ⊢
  rw [attrs_setAttr]
  exact nodup_keys_setAttrList k v h

theorem NodupKeys_congr {n m : XmlNode} (h : n.attrs = m.attrs)
    (hm : NodupKeys m) : NodupKeys n := by
  unfold NodupKeys at hm ⊢
  rw [h]
  exact hm

theorem NodupKeys_SetIfPositive {n : XmlNode} (h : NodupKeys n)
    (a : String) (v : ℚ) : NodupKeys (SetIfPositive a v n) := by
  unfold SetIfPositive
  split
  · exact NodupKeys_setAttr h a _
  · exact h

theorem NodupKeys_AddCommon {n : XmlNode} (h : NodupKeys n)
    (options : MpdOptions) : NodupKeys (AddCommonMpdInfo options n).1 := by
  unfold AddCommonMpdInfo
  split
  · exact NodupKeys_setAttr h _ _
  · exact h

theorem NodupKeys_AddStatic {n : XmlNode} (h : NodupKeys n) :
    NodupKeys (AddStaticMpdInfo n).1 := by
  unfold AddStaticMpdInfo
  refine NodupKeys_setAttr ?_ _ _
  exact NodupKeys_congr
    (attrs_GetStaticMpdDuration (n.setAttr "type" "static")).1
    (NodupKeys_setAttr h _ _)

theorem NodupKeys_addDynamic {n : XmlNode} (h : NodupKeys n)
    (b : MpdBuilder) (now : ℤ) :
    NodupKeys (b.addDynamicMpdInfo now n).1 := by
  have h2 : NodupKeys ((n.setAttr "type" "dynamic").setAttr "publishTime"
      (xmlDateTimeNowWithOffset 0 now)) :=
    NodupKeys_setAttr (NodupKeys_setAttr h _ _) _ _
  have h3 : ∀ v : String,
      NodupKeys (if v ≠ "" then
        ((n.setAttr "type" "dynamic").setAttr "publishTime"
          (xmlDateTimeNowWithOffset 0 now)).setAttr "availabilityStartTime" v
      else
        (n.setAttr "type" "dynamic").setAttr "publishTime"
          (xmlDateTimeNowWithOffset 0 now)) := by
    intro v
    split
    · exact NodupKeys_setAttr h2 _ _
    · exact h2
  simp only [MpdBuilder.addDynamicMpdInfo]
  by_cases hm : Positive b.mpd_options.mpd_params.minimum_update_period <;>
    simp only [hm, if_true, if_false] <;>
    refine NodupKeys_SetIfPositive (NodupKeys_SetIfPositive ?_ _ _) _ _
  · exact NodupKeys_setAttr (h3 _) _ _
  · exact h3 _

theorem countAttr_eq_one_of_nodup {n : XmlNode} {k v : String}
    (hnd : NodupKeys n) (hg : n.getAttr k = some v) : n.countAttr k = 1 := by
  rw [countAttr_eq_count]
  simp only [XmlNode.getAttr] at hg
  rcases Option.map_eq_some'.mp hg with ⟨a, hfind, _⟩
  have hp := List.find?_some hfind
  have hak : a.1 = k := by simpa using hp
  have hmem : k ∈ n.attrs.map Prod.fst :=
    List.mem_map.mpr ⟨a, List.mem_of_find?_eq_some hfind, hak⟩
  exact List.count_eq_one_of_mem hnd hmem

/-- The five fixed namespace attributes and the profile attribute of the
decorated root. -/
theorem getAttr_nsProfile_fixed (mpd : XmlNode) (uri : String) :
    ((AddMpdNameSpaceInfo mpd).setAttr "profiles" uri).getAttr "xmlns" =
        some "urn:mpeg:dash:schema:mpd:2011" ∧
      ((AddMpdNameSpaceInfo mpd).setAttr "profiles" uri).getAttr "xmlns:xsi" =
        some "http://www.w3.org/2001/XMLSchema-instance" ∧
      ((AddMpdNameSpaceInfo mpd).setAttr "profiles" uri).getAttr "xmlns:xlink" =
        some "http://www.w3.org/1999/xlink" ∧
      ((AddMpdNameSpaceInfo mpd).setAttr "profiles" uri).getAttr
          "xsi:schemaLocation" =
        some "urn:mpeg:dash:schema:mpd:2011 DASH-MPD.xsd" ∧
      ((AddMpdNameSpaceInfo mpd).setAttr "profiles" uri).getAttr "xmlns:cenc" =
        some "urn:mpeg:cenc:2013" ∧
      ((AddMpdNameSpaceInfo mpd).setAttr "profiles" uri).getAttr "profiles" =
        some uri := by
  refine ⟨?_, ?_, ?_, ?_, ?_, ?_⟩ <;>
    simp [AddMpdNameSpaceInfo, getAttr_setAttr_ne, getAttr_setAttr_self]

/-- `AddDynamicMpdInfo` leaves attributes outside its six keys
unchanged. -/
theorem addDynamic_getAttr_ne {k : String} (h1 : k ≠ "type")
    (h2 : k ≠ "publishTime") (h3 : k ≠ "availabilityStartTime")
    (h4 : k ≠ "minimumUpdatePeriod") (h5 : k ≠ "timeShiftBufferDepth")
    (h6 : k ≠ "suggestedPresentationDelay") (b : MpdBuilder) (now : ℤ)
    (node : XmlNode) :
    (b.addDynamicMpdInfo now node).1.getAttr k = node.getAttr k := by
  simp only [MpdBuilder.addDynamicMpdInfo]
  by_cases hm : Positive b.mpd_options.mpd_params.minimum_update_period <;>
    simp [hm, getAttr_SetIfPositive_ne h5, getAttr_SetIfPositive_ne h6,
      getAttr_setAttr_ne _ h4, getAttr_ite_setAttr_ne h3,
      getAttr_ite_setAttr_ne2 h3, getAttr_setAttr_ne _ h2,
      getAttr_setAttr_ne _ h1]

/-- Claim C9: every successfully emitted root element carries the five
fixed namespace/schema attributes with their fixed values, each exactly
once, and exactly one `profiles` attribute whose value is the URI of the
configured profile. -/
theorem claim9_root_namespace_and_profile
    (b : MpdBuilder) (env : Env) (now : ℤ) (doc : MpdDoc) (b2 : MpdBuilder)
    (log : List LogEntry)
    (h : b.generateMpd env now = (.success doc, b2, log)) :
    (doc.root.getAttr "xmlns" = some "urn:mpeg:dash:schema:mpd:2011" ∧
        doc.root.countAttr "xmlns" = 1) ∧
      (doc.root.getAttr "xmlns:xsi" =
          some "http://www.w3.org/2001/XMLSchema-instance" ∧
        doc.root.countAttr "xmlns:xsi" = 1) ∧
      (doc.root.getAttr "xmlns:xlink" = some "http://www.w3.org/1999/xlink" ∧
        doc.root.countAttr "xmlns:xlink" = 1) ∧
      (doc.root.getAttr "xsi:schemaLocation" =
          some "urn:mpeg:dash:schema:mpd:2011 DASH-MPD.xsd" ∧
        doc.root.countAttr "xsi:schemaLocation" = 1) ∧
      (doc.root.getAttr "xmlns:cenc" = some "urn:mpeg:cenc:2013" ∧
        doc.root.countAttr "xmlns:cenc" = 1) ∧
      ∃ uri, profileUri b.mpd_options.dash_profile = some uri ∧
        doc.root.getAttr "profiles" = some uri ∧
        doc.root.countAttr "profiles" = 1 := by
  obtain ⟨mpd, uri, hattrs, hname, hpuri, hfin⟩ := generateMpd_success_inv h
  have hnodup_base : NodupKeys ((AddMpdNameSpaceInfo mpd).setAttr "profiles" uri) := by
    have h0 : NodupKeys mpd := by
      unfold NodupKeys
      rw [hattrs]
      exact List.nodup_nil
    unfold AddMpdNameSpaceInfo
    exact NodupKeys_setAttr (NodupKeys_setAttr (NodupKeys_setAttr
      (NodupKeys_setAttr (NodupKeys_setAttr (NodupKeys_setAttr h0 _ _) _ _)
        _ _) _ _) _ _) _ _
  have hmain : (∀ k, k ≠ "minBufferTime" → k ≠ "type" →
      k ≠ "mediaPresentationDuration" → k ≠ "publishTime" →
      k ≠ "availabilityStartTime" → k ≠ "minimumUpdatePeriod" →
      k ≠ "timeShiftBufferDepth" → k ≠ "suggestedPresentationDelay" →
      doc.root.getAttr k =
        ((AddMpdNameSpaceInfo mpd).setAttr "profiles" uri).getAttr k) ∧
      NodupKeys doc.root := by
    simp only [MpdBuilder.finishMpd] at hfin
    cases hty : b.mpd_options.mpd_type with
    | kStatic =>
        simp only [hty] at hfin
        injection congrArg Prod.fst hfin with hdoc
        have hroot : doc.root = (AddStaticMpdInfo (AddCommonMpdInfo
            b.mpd_options
            ((AddMpdNameSpaceInfo mpd).setAttr "profiles" uri)).1).1 := by
          rw [← hdoc]
        constructor
        · intro k n1 n2 n3 _ _ _ _ _
          rw [hroot, getAttr_AddStaticMpdInfo_ne n2 n3,
            getAttr_AddCommonMpdInfo_ne n1]
        · rw [hroot]
          exact NodupKeys_AddStatic (NodupKeys_AddCommon hnodup_base _)
    | kDynamic =>
        simp only [hty] at hfin
        injection congrArg Prod.fst hfin with hdoc
        have hroot : doc.root = (b.addDynamicMpdInfo now (AddCommonMpdInfo
            b.mpd_options
            ((AddMpdNameSpaceInfo mpd).setAttr "profiles" uri)).1).1 := by
          rw [← hdoc]
        constructor
        · intro k n1 n2 _ n4 n5 n6 n7 n8
          rw [hroot, addDynamic_getAttr_ne n2 n4 n5 n6 n7 n8,
            getAttr_AddCommonMpdInfo_ne n1]
        · rw [hroot]
          exact NodupKeys_addDynamic (NodupKeys_AddCommon hnodup_base _) b now
    | unknown w =>
        simp only [hty] at hfin
        exact absurd (congrArg Prod.fst hfin) (by simp)
  obtain ⟨hkeep, hnodup⟩ := hmain
  have hfix := getAttr_nsProfile_fixed mpd uri
  have g1 : doc.root.getAttr "xmlns" = some "urn:mpeg:dash:schema:mpd:2011" := by
    rw [hkeep _ (by decide) (by decide) (by decide) (by decide) (by decide)
      (by decide) (by decide) (by decide)]
    exact hfix.1
  have g2 : doc.root.getAttr "xmlns:xsi" =
      some "http://www.w3.org/2001/XMLSchema-instance" := by
    rw [hkeep _ (by decide) (by decide) (by decide) (by decide) (by decide)
      (by decide) (by decide) (by decide)]
    exact hfix.2.1
  have g3 : doc.root.getAttr "xmlns:xlink" =
      some "http://www.w3.org/1999/xlink" := by
    rw [hkeep _ (by decide) (by decide) (by decide) (by decide) (by decide)
      (by decide) (by decide) (by decide)]
    exact hfix.2.2.1
  have g4 : doc.root.getAttr "xsi:schemaLocation" =
      some "urn:mpeg:dash:schema:mpd:2011 DASH-MPD.xsd" := by
    rw [hkeep _ (by decide) (by decide) (by decide) (by decide) (by decide)
      (by decide) (by decide) (by decide)]
    exact hfix.2.2.2.1
  have g5 : doc.root.getAttr "xmlns:cenc" = some "urn:mpeg:cenc:2013" := by
    rw [hkeep _ (by decide) (by decide) (by decide) (by decide) (by decide)
      (by decide) (by decide) (by decide)]
    exact hfix.2.2.2.2.1
  have gp : doc.root.getAttr "profiles" = some uri := by
    rw [hkeep _ (by decide) (by decide) (by decide) (by decide) (by decide)
      (by decide) (by decide) (by decide)]
    exact hfix.2.2.2.2.2
  exact ⟨⟨g1, countAttr_eq_one_of_nodup hnodup g1⟩,
    ⟨g2, countAttr_eq_one_of_nodup hnodup g2⟩,
    ⟨g3, countAttr_eq_one_of_nodup hnodup g3⟩,
    ⟨g4, countAttr_eq_one_of_nodup hnodup g4⟩,
    ⟨g5, countAttr_eq_one_of_nodup hnodup g5⟩,
    uri, hpuri, gp, countAttr_eq_one_of_nodup hnodup gp⟩

/-- Witness for C9 on `dynCachedBuilder`: the live profile URI is
attached exactly once beside the five namespace attributes. -/
theorem claim9_root_namespace_and_profile_witness :
    ∃ doc b2 log,
      dynCachedBuilder.generateMpd envOk 0 = (.success doc, b2, log) ∧
        doc.root.getAttr "xmlns" = some "urn:mpeg:dash:schema:mpd:2011" ∧
        doc.root.countAttr "xmlns" = 1 ∧
        doc.root.getAttr "profiles" =
          some "urn:mpeg:dash:profile:isoff-live:2011" ∧
        doc.root.countAttr "profiles" = 1 := by
  refine ⟨_, _, _, dynCachedBuilder_generates, ?_⟩
  have h := claim9_root_namespace_and_profile dynCachedBuilder envOk 0 _ _ _
    dynCachedBuilder_generates
  obtain ⟨uri, hpuri, hgp, hcp⟩ := h.2.2.2.2.2
  have huri : uri = "urn:mpeg:dash:profile:isoff-live:2011" := by
    simpa [dynCachedBuilder, profileUri] using hpuri.symm
  exact ⟨h.1.1, h.1.2, huri ▸ hgp, hcp⟩

end Shaka
